import Mathlib

/-!
Shallow embedding of the owned code of the task_management repository:
the SQL schema (`src/flyway/sql/V1___initial_schema.sql`) and the two
service modules (`src/app/services/taskService.js`,
`src/app/services/workEntryService.js`).

The database is modelled as explicit state: the two tables are lists of
rows in table order (a `SELECT` without `ORDER BY` returns rows in that
order; `INSERT` appends).  `SERIAL` surrogate keys are modelled by
sequence counters carried in the state.  Timestamps are integers, and
`NOW()` becomes an explicit `now` argument to the operations that use it.
SQL `NULL` in a nullable timestamp column is `Option.none`.  The service
functions are stateless pass-throughs, so each becomes either a pure
query on the state or a state transformer; the JS functions have no
error path for zero-row updates, so the transformers are total.
-/

/-- A row of the `tasks` table: `id SERIAL PRIMARY KEY, name TEXT NOT NULL,
completed BOOLEAN DEFAULT false`.  The owned code only ever writes
`false` (the schema default, via `create`) or `true` (via `completeById`)
into `completed`, so it is modelled as `Bool`. -/
structure TaskRow where
  id : Nat
  name : String
  completed : Bool
deriving Repr, DecidableEq

/-- A JavaScript object returned by `taskService.findById`: either a full
row of `tasks` (then `completed` is present) or the sentinel
`{ id: 0, name: "Unknown" }`, which has no `completed` property
(modelled as `none`). -/
structure TaskObj where
  id : Nat
  name : String
  completed : Option Bool
deriving Repr, DecidableEq

/-- The object view of a `tasks` row. -/
def TaskRow.toObj (r : TaskRow) : TaskObj :=
  ⟨r.id, r.name, some r.completed⟩

/-- A row of the `work_entries` table: `id SERIAL PRIMARY KEY,
task_id INTEGER REFERENCES tasks(id), started_on TIMESTAMPTZ,
finished_on TIMESTAMPTZ`.  `finished_on` is nullable and null while the
entry is open; `started_on` is always supplied by the owned code. -/
structure WorkEntryRow where
  id : Nat
  task_id : Nat
  started_on : Int
  finished_on : Option Int
deriving Repr, DecidableEq

/-- The database state: the two tables in table order plus the two
`SERIAL` sequences. -/
structure DB where
  tasks : List TaskRow
  work_entries : List WorkEntryRow
  nextTaskId : Nat
  nextEntryId : Nat
deriving Repr, DecidableEq

namespace taskService

/-- `completeById(id)`: `UPDATE tasks SET completed = true WHERE id = id`.
Unconditional update; rows whose `id` does not match are untouched. -/
def completeById (db : DB) (id : Nat) : DB :=
  { db with
    tasks := db.tasks.map fun r =>
      if r.id = id then { r with completed := true } else r }

/-- `create(name)`: `INSERT INTO tasks (name) VALUES (name)`.  The `id`
comes from the `SERIAL` sequence and `completed` from the schema default
`false`.  No return value: the result is only the new state. -/
def create (db : DB) (name : String) : DB :=
  { db with
    tasks := db.tasks ++ [⟨db.nextTaskId, name, false⟩]
    nextTaskId := db.nextTaskId + 1 }

/-- `findAllNonCompletedTasks()`:
`SELECT * FROM tasks WHERE completed = false`. -/
def findAllNonCompletedTasks (db : DB) : List TaskRow :=
  db.tasks.filter fun r => r.completed = false

/-- `findById(id)`: `SELECT * FROM tasks WHERE id = id`; returns
`rows[0]` when the result set is nonempty, otherwise the sentinel
`{ id: 0, name: "Unknown" }`. -/
def findById (db : DB) (id : Nat) : TaskObj :=
  let rows := db.tasks.filter fun r => r.id = id
  match rows with
  | r :: _ => r.toObj
  | [] => ⟨0, "Unknown", none⟩

end taskService

namespace workEntryService

/-- `createWorkEntry(taskId)`:
`INSERT INTO work_entries (task_id, started_on) VALUES (taskId, NOW())`.
`finished_on` is left null; `NOW()` is the explicit `now` argument. -/
def createWorkEntry (db : DB) (taskId : Nat) (now : Int) : DB :=
  { db with
    work_entries := db.work_entries ++ [⟨db.nextEntryId, taskId, now, none⟩]
    nextEntryId := db.nextEntryId + 1 }

/-- `findCurrentWorkEntry(taskId)`: `SELECT * FROM work_entries WHERE
task_id = taskId AND finished_on IS NULL`; returns `rows[0]` when the
result set is nonempty, otherwise the JS literal `false`.  The sum-typed
return is modelled by `Option`: `some row` for a found row, `none` for
the `false` sentinel. -/
def findCurrentWorkEntry (db : DB) (taskId : Nat) : Option WorkEntryRow :=
  let rows := db.work_entries.filter fun e =>
    e.task_id = taskId ∧ e.finished_on = none
  match rows with
  | e :: _ => some e
  | [] => none

/-- `finishWorkEntry(id)`:
`UPDATE work_entries SET finished_on = NOW() WHERE id = id`.
Unconditional update, `NOW()` explicit. -/
def finishWorkEntry (db : DB) (id : Nat) (now : Int) : DB :=
  { db with
    work_entries := db.work_entries.map fun e =>
      if e.id = id then { e with finished_on := some now } else e }

/-- The `finished_on - started_on` interval of a closed entry (the
queries below only apply it where `finished_on IS NOT NULL`). -/
def entryDuration (e : WorkEntryRow) : Int :=
  e.finished_on.getD 0 - e.started_on

/-- `calculateTotalTime(taskId)`: `SELECT SUM(finished_on - started_on)
AS total_time FROM work_entries WHERE task_id = taskId AND finished_on
IS NOT NULL`, followed by the JS truthiness check
`if (rows && rows[0] && rows[0].total_time) return rows[0].total_time;
return 0`.  SQL `SUM` over an empty set is `NULL`, and a null or falsy
(zero) total yields `0`. -/
def calculateTotalTime (db : DB) (taskId : Nat) : Int :=
  let rows := db.work_entries.filter fun e =>
    e.task_id = taskId ∧ e.finished_on ≠ none
  match rows with
  | [] => 0
  | closed =>
    let total := (closed.map entryDuration).sum
    if total = 0 then 0 else total

end workEntryService

/-- Summing a function over the rows kept by a filter equals summing its
zero-padded extension over all rows. -/
theorem sum_map_filter_eq_sum_ite {α : Type} (p : α → Prop) [DecidablePred p]
    (f : α → Int) (l : List α) :
    ((l.filter fun a => p a).map f).sum
      = (l.map fun a => if p a then f a else 0).sum := by
  induction l with
  | nil => rfl
  | cons a t ih =>
    by_cases h : p a <;> simp [List.filter_cons, h, ih]

/-- Claim C4: `findAllNonCompletedTasks()` returns exactly the task rows
whose `completed` field is `false`: every such row appears and no row
with `completed = true` appears. -/
theorem findAllNonCompletedTasks_mem_iff (db : DB) (r : TaskRow) :
    r ∈ taskService.findAllNonCompletedTasks db
      ↔ r ∈ db.tasks ∧ r.completed = false := by
  simp [taskService.findAllNonCompletedTasks, List.mem_filter]

/-- Claim C8: `create(name)` inserts exactly one task row with the given
name and the schema-default `completed = false` (and the next `SERIAL`
id), and a subsequent `findAllNonCompletedTasks()` contains that row.
This holds for every name, empty and duplicate names included. -/
theorem create_inserts_row (db : DB) (name : String) :
    (taskService.create db name).tasks
        = db.tasks ++ [⟨db.nextTaskId, name, false⟩]
      ∧ (⟨db.nextTaskId, name, false⟩ : TaskRow)
          ∈ taskService.findAllNonCompletedTasks (taskService.create db name) := by
  refine ⟨rfl, ?_⟩
  simp [taskService.findAllNonCompletedTasks, taskService.create, List.mem_filter]

/-- Mapping a function that fixes every member of a list leaves the list
unchanged. -/
theorem map_eq_self_of_mem_eq {α : Type} (f : α → α) :
    ∀ l : List α, (∀ a ∈ l, f a = a) → l.map f = l := by
  intro l h
  induction l with
  | nil => rfl
  | cons a t ih =>
    simp only [List.map_cons]
    rw [h a (List.mem_cons_self a t), ih]
    intro b hb
    exact h b (List.mem_cons_of_mem a hb)

/-- Claim C1: `calculateTotalTime(taskId)` is the sum of
`finished_on - started_on` over exactly the `work_entries` rows with the
given `task_id` and a non-null `finished_on`, and it is `0` when no such
closed entry exists (the `NULL`/falsy branch). -/
theorem calculateTotalTime_eq_sum (db : DB) (taskId : Nat) :
    workEntryService.calculateTotalTime db taskId
        = ((db.work_entries.filter fun e =>
              e.task_id = taskId ∧ e.finished_on ≠ none).map
            workEntryService.entryDuration).sum
      ∧ ((∀ e ∈ db.work_entries, e.task_id = taskId → e.finished_on = none)
          → workEntryService.calculateTotalTime db taskId = 0) := by
  have hmain : workEntryService.calculateTotalTime db taskId
      = ((db.work_entries.filter fun e =>
            e.task_id = taskId ∧ e.finished_on ≠ none).map
          workEntryService.entryDuration).sum := by
    unfold workEntryService.calculateTotalTime
    cases hl : db.work_entries.filter
        (fun e => decide (e.task_id = taskId ∧ e.finished_on ≠ none)) with
    | nil => simp
    | cons a t =>
      dsimp only
      split
      · next htot => exact htot.symm
      · rfl
  refine ⟨hmain, fun hnone => ?_⟩
  rw [hmain]
  have : db.work_entries.filter
      (fun e => decide (e.task_id = taskId ∧ e.finished_on ≠ none)) = [] := by
    rw [List.filter_eq_nil_iff]
    intro e he
    simp only [decide_eq_true_eq, not_and, ne_eq, not_not]
    exact hnone e he
  rw [this]
  rfl

/-- Claim C1 witness: concrete evaluation on a database with two closed
entries and one open entry for task 1, and no entries for task 2. -/
theorem calculateTotalTime_eq_sum_witness :
    workEntryService.calculateTotalTime
        ⟨[⟨1, "t", false⟩],
         [⟨10, 1, 0, some 4⟩, ⟨11, 1, 2, some 9⟩, ⟨12, 1, 5, none⟩], 2, 13⟩ 2
      = 0 := by
  have h := calculateTotalTime_eq_sum
      ⟨[⟨1, "t", false⟩],
       [⟨10, 1, 0, some 4⟩, ⟨11, 1, 2, some 9⟩, ⟨12, 1, 5, none⟩], 2, 13⟩ 2
  exact h.2 (by decide)

/-- Claim C2: `findById(id)` returns the first `tasks` row whose id
matches when at least one exists, and the sentinel
`{ id: 0, name: "Unknown" }` (no `completed` property) when none does. -/
theorem findById_spec (db : DB) (id : Nat) :
    (∀ r, (db.tasks.filter fun t => t.id = id).head? = some r
        → taskService.findById db id = r.toObj)
      ∧ ((∀ r ∈ db.tasks, r.id ≠ id)
        → taskService.findById db id = ⟨0, "Unknown", none⟩) := by
  constructor
  · intro r hr
    unfold taskService.findById
    cases hl : db.tasks.filter (fun t => decide (t.id = id)) with
    | nil => rw [hl] at hr; exact absurd hr (by simp)
    | cons a t =>
      rw [hl] at hr
      simp only [List.head?] at hr
      dsimp only
      rw [Option.some.injEq] at hr
      rw [hr]
  · intro hnone
    unfold taskService.findById
    have : db.tasks.filter (fun t => decide (t.id = id)) = [] := by
      rw [List.filter_eq_nil_iff]
      intro r hrmem
      simpa using hnone r hrmem
    rw [this]

/-- Claim C2 witness: `findById` on a populated table finds the first
matching row, and on an id that matches nothing returns the sentinel. -/
theorem findById_spec_witness :
    taskService.findById ⟨[⟨1, "a", false⟩, ⟨2, "b", true⟩], [], 3, 1⟩ 2
        = ⟨2, "b", some true⟩
      ∧ taskService.findById ⟨[⟨1, "a", false⟩, ⟨2, "b", true⟩], [], 3, 1⟩ 7
        = ⟨0, "Unknown", none⟩ := by
  constructor
  · exact (findById_spec ⟨[⟨1, "a", false⟩, ⟨2, "b", true⟩], [], 3, 1⟩ 2).1
      ⟨2, "b", true⟩ (by decide)
  · exact (findById_spec ⟨[⟨1, "a", false⟩, ⟨2, "b", true⟩], [], 3, 1⟩ 7).2
      (by decide)

/-- Claim C6: `completeById(id)` on an id matching no existing task row
terminates normally (the embedding is total, as the JS has no error path
for a zero-row `UPDATE`) and leaves the whole database state unchanged. -/
theorem completeById_nonexistent_noop (db : DB) (id : Nat)
    (h : ∀ r ∈ db.tasks, r.id ≠ id) :
    taskService.completeById db id = db := by
  unfold taskService.completeById
  have hm : db.tasks.map
      (fun r => if r.id = id then { r with completed := true } else r)
      = db.tasks := by
    apply map_eq_self_of_mem_eq
    intro r hr
    simp [h r hr]
  rw [hm]

/-- Claim C6 witness: completing id 2 when only a task with id 1 exists
changes nothing. -/
theorem completeById_nonexistent_noop_witness :
    taskService.completeById ⟨[⟨1, "a", false⟩], [], 2, 1⟩ 2
      = ⟨[⟨1, "a", false⟩], [], 2, 1⟩ :=
  completeById_nonexistent_noop ⟨[⟨1, "a", false⟩], [], 2, 1⟩ 2 (by decide)

/-- Claim C10: `completeById` is idempotent: running the unconditional
`UPDATE tasks SET completed = true WHERE id = id` twice yields the same
database state as running it once. -/
theorem completeById_idempotent (db : DB) (id : Nat) :
    taskService.completeById (taskService.completeById db id) id
      = taskService.completeById db id := by
  unfold taskService.completeById
  simp only [List.map_map]
  congr 1
  apply List.map_congr_left
  intro r hr
  by_cases h : r.id = id <;> simp [h]

/-- `findCurrentWorkEntry` answers `false` (`none`) exactly when no row
of the task is open. -/
theorem findCurrentWorkEntry_eq_none_iff (db : DB) (taskId : Nat) :
    workEntryService.findCurrentWorkEntry db taskId = none
      ↔ ∀ e ∈ db.work_entries, e.task_id = taskId → e.finished_on ≠ none := by
  unfold workEntryService.findCurrentWorkEntry
  cases hl : db.work_entries.filter
      (fun e => decide (e.task_id = taskId ∧ e.finished_on = none)) with
  | nil =>
    simp only [List.filter_eq_nil_iff, decide_eq_true_eq, not_and] at hl
    simpa using hl
  | cons a t =>
    simp only [reduceCtorEq, false_iff, not_forall]
    have ha : a ∈ db.work_entries.filter
        (fun e => decide (e.task_id = taskId ∧ e.finished_on = none)) := by
      rw [hl]; exact List.mem_cons_self a t
    have := List.mem_filter.mp ha
    refine ⟨a, this.1, ?_⟩
    have hp := this.2
    simp only [decide_eq_true_eq] at hp
    simp [hp.1, hp.2]

/-- Any row returned by `findCurrentWorkEntry` has a null
`finished_on` (it came through the `finished_on IS NULL` filter). -/
theorem findCurrentWorkEntry_open (db : DB) (taskId : Nat) (r : WorkEntryRow)
    (h : workEntryService.findCurrentWorkEntry db taskId = some r) :
    r.finished_on = none := by
  unfold workEntryService.findCurrentWorkEntry at h
  cases hl : db.work_entries.filter
      (fun e => decide (e.task_id = taskId ∧ e.finished_on = none)) with
  | nil => rw [hl] at h; cases h
  | cons a t =>
    rw [hl] at h
    simp only [Option.some.injEq] at h
    have ha : a ∈ db.work_entries.filter
        (fun e => decide (e.task_id = taskId ∧ e.finished_on = none)) := by
      rw [hl]; exact List.mem_cons_self a t
    have hp := (List.mem_filter.mp ha).2
    simp only [decide_eq_true_eq] at hp
    rw [← h]
    exact hp.2

/-- Claim C7: `createWorkEntry(taskId)` appends exactly one row with the
given `task_id`, `started_on = NOW()` and a null `finished_on`, and a
subsequent `findCurrentWorkEntry(taskId)` returns a row whose
`finished_on` is null. -/
theorem createWorkEntry_spec (db : DB) (taskId : Nat) (now : Int) :
    (workEntryService.createWorkEntry db taskId now).work_entries
        = db.work_entries ++ [⟨db.nextEntryId, taskId, now, none⟩]
      ∧ ∃ r, workEntryService.findCurrentWorkEntry
              (workEntryService.createWorkEntry db taskId now) taskId = some r
          ∧ r.finished_on = none := by
  refine ⟨rfl, ?_⟩
  have hnot : ¬ workEntryService.findCurrentWorkEntry
      (workEntryService.createWorkEntry db taskId now) taskId = none := by
    rw [findCurrentWorkEntry_eq_none_iff]
    intro hall
    exact hall ⟨db.nextEntryId, taskId, now, none⟩
      (by simp [workEntryService.createWorkEntry]) rfl rfl
  cases hopt : workEntryService.findCurrentWorkEntry
      (workEntryService.createWorkEntry db taskId now) taskId with
  | none => exact absurd hopt hnot
  | some r =>
    exact ⟨r, rfl, findCurrentWorkEntry_open _ _ r hopt⟩

/-- A database in which task 1 has two simultaneously open work entries
(ids 10 and 11) — a state the schema and the owned code do not prevent
(no partial unique index, no pre-insert check in `createWorkEntry`). -/
def twoOpenDB : DB :=
  ⟨[⟨1, "t", false⟩], [⟨10, 1, 0, none⟩, ⟨11, 1, 5, none⟩], 2, 12⟩

/-- Claim C3 counterexample: entry 10 belongs to task 1, yet after
`finishWorkEntry(10)` the other open entry 11 is still there, so
`findCurrentWorkEntry(1)` does not return `false`. -/
theorem finishWorkEntry_not_always_clears :
    (∃ e ∈ twoOpenDB.work_entries, e.id = 10 ∧ e.task_id = 1)
      ∧ workEntryService.findCurrentWorkEntry
          (workEntryService.finishWorkEntry twoOpenDB 10 7) 1 ≠ none := by
  decide

/-- Claim C3 (amended): for a work entry that is the only open entry of
its task, after `finishWorkEntry` on its id, `findCurrentWorkEntry` for
its task returns `false` (`none`).  The uniqueness hypothesis is the
data model's assumed (but unenforced) one-open-entry-per-task
invariant; without it the claim fails. -/
theorem finishWorkEntry_clears_unique_open (db : DB) (e : WorkEntryRow)
    (now : Int) (he : e ∈ db.work_entries)
    (huniq : ∀ e2 ∈ db.work_entries,
      e2.task_id = e.task_id → e2.finished_on = none → e2.id = e.id) :
    workEntryService.findCurrentWorkEntry
        (workEntryService.finishWorkEntry db e.id now) e.task_id = none := by
  rw [findCurrentWorkEntry_eq_none_iff]
  intro e2 he2 htid
  simp only [workEntryService.finishWorkEntry, List.mem_map] at he2
  obtain ⟨e0, he0, hfe⟩ := he2
  by_cases h0 : e0.id = e.id
  · rw [if_pos h0] at hfe
    rw [← hfe]
    simp
  · rw [if_neg h0] at hfe
    subst hfe
    intro hnone
    exact h0 (huniq e0 he0 htid hnone)

/-- Claim C3 (amended) witness: with a single open entry 10 for task 1,
finishing it makes `findCurrentWorkEntry(1)` return `false`. -/
theorem finishWorkEntry_clears_unique_open_witness :
    workEntryService.findCurrentWorkEntry
        (workEntryService.finishWorkEntry
          ⟨[⟨1, "t", false⟩], [⟨10, 1, 0, none⟩], 2, 11⟩ 10 7) 1 = none :=
  finishWorkEntry_clears_unique_open
    ⟨[⟨1, "t", false⟩], [⟨10, 1, 0, none⟩], 2, 11⟩
    ⟨10, 1, 0, none⟩ 7 (by decide) (by decide)

/-- Claim C5: after `completeById(id)` for an existing task, no row with
that id appears in `findAllNonCompletedTasks()`. -/
theorem completeById_removes_task (db : DB) (id : Nat)
    (h : ∃ r ∈ db.tasks, r.id = id) :
    ∀ r ∈ taskService.findAllNonCompletedTasks (taskService.completeById db id),
      r.id ≠ id := by
  intro r hr
  simp only [taskService.findAllNonCompletedTasks, taskService.completeById,
    List.mem_filter, List.mem_map, decide_eq_true_eq] at hr
  obtain ⟨⟨r0, hr0, hfr0⟩, hcomp⟩ := hr
  intro hrid
  by_cases h0 : r0.id = id
  · rw [if_pos h0] at hfr0
    rw [← hfr0] at hcomp
    simp at hcomp
  · rw [if_neg h0] at hfr0
    rw [← hfr0] at hrid
    exact h0 hrid

/-- Claim C5 witness: after completing task 1 of two tasks, the row that
remains non-completed is task 2, whose id differs from 1. -/
theorem completeById_removes_task_witness :
    (⟨2, "b", false⟩ : TaskRow) ∈ taskService.findAllNonCompletedTasks
        (taskService.completeById ⟨[⟨1, "a", false⟩, ⟨2, "b", false⟩], [], 3, 1⟩ 1)
      ∧ (⟨2, "b", false⟩ : TaskRow).id ≠ 1 := by
  refine ⟨by decide, ?_⟩
  exact completeById_removes_task ⟨[⟨1, "a", false⟩, ⟨2, "b", false⟩], [], 3, 1⟩ 1
    ⟨⟨1, "a", false⟩, by decide, rfl⟩ ⟨2, "b", false⟩ (by decide)

/-- Claim C9: `completeById(id)` leaves `work_entries` untouched and maps
the task list row-for-row (so no task row is deleted): every row keeps
its `id` and `name`; a row whose id misses is unchanged entirely; a row
whose id matches has `completed = true`.  `create` (the only other
mutating owned operation) only appends, so it deletes no row either. -/
theorem completeById_frame (db : DB) (id : Nat) :
    (taskService.completeById db id).work_entries = db.work_entries
      ∧ List.Forall₂ (fun r2 r =>
            r2.id = r.id ∧ r2.name = r.name
              ∧ (r.id = id → r2.completed = true)
              ∧ (r.id ≠ id → r2 = r))
          (taskService.completeById db id).tasks db.tasks
      ∧ (∀ n, db.tasks.Sublist (taskService.create db n).tasks) := by
  refine ⟨rfl, ?_, ?_⟩
  · simp only [taskService.completeById]
    rw [List.forall₂_map_left_iff, List.forall₂_same]
    intro r hr
    by_cases h : r.id = id <;> simp [h]
  · intro n
    simp only [taskService.create]
    exact List.sublist_append_left _ _

/-- Claim C9 witness: concrete instance of the frame property. -/
theorem completeById_frame_witness :
    (taskService.completeById
        ⟨[⟨1, "a", false⟩], [⟨10, 1, 0, none⟩], 2, 11⟩ 1).work_entries
      = (⟨[⟨1, "a", false⟩], [⟨10, 1, 0, none⟩], 2, 11⟩ : DB).work_entries :=
  (completeById_frame ⟨[⟨1, "a", false⟩], [⟨10, 1, 0, none⟩], 2, 11⟩ 1).1
